import Mathlib

/-!
Shallow embedding of `src/main.go` (skip-mev/upgrades): a CLI tool that runs
the external `codeql` engine and pretty-prints the SARIF findings.

Modelling conventions:
* Go `int` is modelled as `Int` (the values involved are far from 2^63, and no
  arithmetic that could overflow is performed on them).
* File contents are raw byte sequences, modelled as `List Char`; the file
  system is a partial map `String → Option (List Char)` (`none` = open fails).
* `fmt.Printf`/`fmt.Println` calls that each emit one `\n`-terminated line are
  modelled by accumulating the printed lines in a list.
* The `fatih/color` wrappers (`red.Sprint`, `yellow.Sprint`) only add terminal
  escape codes when attached to a TTY; the spec calls colorisation a
  presentation detail, so `Sprint` is modelled as the identity on the text.
* A Go `panic` (here: only `strings.Repeat` with a negative count) is a
  distinguished non-error outcome, not a returned `error`.
* External effects (subprocess runs, temp-dir creation, reading the results
  file) are modelled by an environment record holding each step's outcome.
-/

namespace MigrationCheck

/-- Decidable equality for `Except`, so the theorems below can be
instantiated on concrete inputs by evaluation. -/
instance {ε α : Type} [DecidableEq ε] [DecidableEq α] : DecidableEq (Except ε α) :=
  fun x y =>
    match x, y with
    | .error a, .error b => decidable_of_iff (a = b) (by simp)
    | .error _, .ok _ => .isFalse (by simp)
    | .ok _, .error _ => .isFalse (by simp)
    | .ok a, .ok b => decidable_of_iff (a = b) (by simp)

/-- SARIF region, from `type SarifRegion struct` in `src/main.go`
(`StartLine`, `StartColumn`, `EndLine`, all Go `int`). -/
structure SarifRegion where
  StartLine : Int
  StartColumn : Int
  EndLine : Int
deriving Repr, DecidableEq

/-- SARIF artifact location, from `type SarifArtifactLocation struct`. -/
structure SarifArtifactLocation where
  Uri : String
deriving Repr, DecidableEq

/-- SARIF physical location, from `type SarifPhysicalLocation struct`. -/
structure SarifPhysicalLocation where
  ArtifactLocation : SarifArtifactLocation
  Region : SarifRegion
deriving Repr, DecidableEq

/-- SARIF location, from `type SarifLocation struct`. -/
structure SarifLocation where
  PhysicalLocation : SarifPhysicalLocation
deriving Repr, DecidableEq

/-- SARIF message, from `type SarifMessage struct`. -/
structure SarifMessage where
  Text : String
deriving Repr, DecidableEq

/-- SARIF result, from `type SarifResult struct`. -/
structure SarifResult where
  Message : SarifMessage
  Locations : List SarifLocation
deriving Repr, DecidableEq

/-- SARIF run, from `type SarifRun struct`. -/
structure SarifRun where
  Results : List SarifResult
deriving Repr, DecidableEq

/-- Top-level SARIF report, from `type Sarif struct`. -/
structure Sarif where
  Runs : List SarifRun
deriving Repr, DecidableEq

/-! ## Line reading (`readSpecificLine`, `src/main.go:164-186`)

`readSpecificLine` drives a `bufio.Scanner` with the default `ScanLines`
split function over the opened file.  `bufio.ScanLines` yields, for every
newline byte, the bytes before it with one trailing `'\r'` removed, and, at
end of input, the remaining bytes (again with one trailing `'\r'` removed)
provided they are non-empty.  The scanner's buffer is capped at the default
`bufio.MaxScanTokenSize` (64 KiB): whenever 65536 bytes accumulate with no
newline among them, `Scan` stops with `bufio.ErrTooLong` — tokens already
emitted stand, and `scanner.Err()` reports the error.  (The boundary is
exact for this program: the file comes from `os.Open`, whose `Read` reports
`io.EOF` only on the call after the last byte, so even a final unterminated
segment of exactly 65536 bytes overflows the buffer before EOF is seen;
a terminated line needs its `'\n'` within the first 65536 buffered bytes,
so lines of up to 65535 bytes scan and longer ones fail.) -/

/-- Default `bufio.MaxScanTokenSize`: 64 * 1024. -/
def maxScanTokenSize : Nat := 65536

/-- The `bufio.ErrTooLong` message, as returned by `scanner.Err()`. -/
def bufioErrTooLong : String := "bufio.Scanner: token too long"

/-- Model of `bufio.dropCR`: remove one trailing carriage return, if any. -/
def dropCR (l : List Char) : List Char :=
  match l.getLast? with
  | some c => if c = '\r' then l.dropLast else l
  | none => l

/-- Worker for `scanLines`: `acc` holds the bytes of the current token read
so far (the bytes buffered since the previous newline).  When `acc` has
reached 65536 bytes with no newline found, scanning stops with
`bufio.ErrTooLong`; otherwise tokens are emitted as `bufio.ScanLines`
produces them. -/
def scanLinesAux : List Char → List Char → List (List Char) × Option String
  | acc, [] =>
    if maxScanTokenSize ≤ acc.length then ([], some bufioErrTooLong)
    else if acc = [] then ([], none)
    else ([dropCR acc], none)
  | acc, c :: rest =>
    if maxScanTokenSize ≤ acc.length then ([], some bufioErrTooLong)
    else if c = '\n' then
      (dropCR acc :: (scanLinesAux [] rest).1, (scanLinesAux [] rest).2)
    else scanLinesAux (acc ++ [c]) rest

/-- The tokens produced by `bufio.Scanner` with `ScanLines` on the given
file content, together with the scan error (`scanner.Err()`) that stopped
the scan, if any. -/
def scanLines (content : List Char) : List (List Char) × Option String :=
  scanLinesAux [] content

/-- The `for scanner.Scan()` loop of `readSpecificLine`: walk the emitted
tokens counting from 1; on reaching `targetLine` return that line's text.
When the tokens run out the loop exits and `scanner.Err()` is consulted
(`src/main.go:181-183`): a scan error is returned as-is, otherwise the
`file has less than N lines` error. -/
def readLoop (targetLine : Int) :
    List (List Char) → Int → Option String → Except String String
  | [], _, some e => .error e
  | [], _, none => .error ("file has less than " ++ toString targetLine ++ " lines")
  | l :: ls, currentLine, scanErr =>
    if currentLine = targetLine then .ok (String.mk l)
    else readLoop targetLine ls (currentLine + 1) scanErr

/-- Model of `readSpecificLine(filePath, targetLine)`: open the file in the
file system `fs` (propagating the open error), then scan line-by-line
counting from 1.  Go interleaves scanning with the loop; since the file is
fixed, pre-computing the scan is equivalent: a target found among the
emitted tokens returns before the scanner can fail, and the scan error is
only ever surfaced once the tokens are exhausted. -/
def readSpecificLine (fs : String → Option (List Char)) (filePath : String)
    (targetLine : Int) : Except String String :=
  match fs filePath with
  | none => .error ("open " ++ filePath ++ ": no such file or directory")
  | some content => readLoop targetLine (scanLines content).1 1 (scanLines content).2

/-- Content of a file made of the given lines, each terminated by `'\n'`. -/
def linesContent (ls : List (List Char)) : List Char :=
  (ls.map (fun l => l ++ ['\n'])).flatten

/-! ## Rendering (`printFindings`, `src/main.go:140-162`) -/

/-- How a render pass can stop early: `readErr` models the
`return fmt.Errorf("failed to read file: %w", err)` path, `panicked` models a
runtime panic (from `strings.Repeat` with a negative count). -/
inductive Failure where
  | readErr (msg : String)
  | panicked
deriving Repr, DecidableEq

/-- Outcome of (part of) a render pass: the lines printed to stdout, and
`none` if it completed, or the failure that stopped it. -/
structure RenderOut where
  lines : List String
  failure : Option Failure
deriving Repr, DecidableEq

/-- Model of Go `strings.Repeat(s, count)`: panics (`none`) when `count` is
negative, otherwise `count` copies of `s`. -/
def stringsRepeat (s : String) (count : Int) : Option String :=
  if count < 0 then none
  else some (String.mk (List.replicate count.toNat s.data).flatten)

/-- Body of the innermost `for _, location := range result.Locations` loop of
`printFindings`: read the referenced source line (returning the wrapped
`failed to read file` error on failure), then print the three diagnostic
lines.  `strings.Repeat(" ", column)` is evaluated before the third line is
printed, so a negative column panics after the first two lines. -/
def renderOne (fs : String → Option (List Char)) (messageText : String)
    (location : SarifLocation) : RenderOut :=
  let uri := location.PhysicalLocation.ArtifactLocation.Uri
  let line := location.PhysicalLocation.Region.StartLine
  let column := location.PhysicalLocation.Region.StartColumn
  match readSpecificLine fs uri line with
  | .error e => { lines := [], failure := some (.readErr ("failed to read file: " ++ e)) }
  | .ok code =>
    let l1 := uri ++ ":" ++ toString line ++ ":" ++ toString column ++ ": " ++ messageText
    let l2 := "  " ++ toString line ++ ": " ++ code
    match stringsRepeat " " column with
    | none => { lines := [l1, l2], failure := some .panicked }
    | some spaces => { lines := [l1, l2, spaces ++ "^"], failure := none }

/-- Sequencing of two render fragments: if the first stops early the second
never runs (the loops are exited by `return`/panic). -/
def seqRender (a b : RenderOut) : RenderOut :=
  match a.failure with
  | some _ => a
  | none => { lines := a.lines ++ b.lines, failure := b.failure }

/-- The `for _, location := range result.Locations` loop. -/
def renderLocs (fs : String → Option (List Char)) (messageText : String) :
    List SarifLocation → RenderOut
  | [] => { lines := [], failure := none }
  | l :: ls => seqRender (renderOne fs messageText l) (renderLocs fs messageText ls)

/-- The `for _, result := range run.Results` loop. -/
def renderResults (fs : String → Option (List Char)) : List SarifResult → RenderOut
  | [] => { lines := [], failure := none }
  | r :: rs => seqRender (renderLocs fs r.Message.Text r.Locations) (renderResults fs rs)

/-- The `for _, run := range sarif.Runs` loop. -/
def renderRuns (fs : String → Option (List Char)) : List SarifRun → RenderOut
  | [] => { lines := [], failure := none }
  | run :: runs => seqRender (renderResults fs run.Results) (renderRuns fs runs)

/-- Model of `printFindings(sarif)`, parameterised by the file system. -/
def printFindings (fs : String → Option (List Char)) (sarif : Sarif) : RenderOut :=
  renderRuns fs sarif.Runs

/-- The (message text, location) pairs of a report, in run order, then result
order, then location order — the iteration order of `printFindings`. -/
def pairsOf (sarif : Sarif) : List (String × SarifLocation) :=
  sarif.Runs.flatMap fun run =>
    run.Results.flatMap fun result =>
      result.Locations.map fun location => (result.Message.Text, location)

/-- Rendering of a flat list of (message text, location) pairs; the nested
loops of `printFindings` are proved equal to this on `pairsOf`. -/
def renderPairs (fs : String → Option (List Char)) :
    List (String × SarifLocation) → RenderOut
  | [] => { lines := [], failure := none }
  | p :: ps => seqRender (renderOne fs p.1 p.2) (renderPairs fs ps)

/-! ## Command construction (`runMigrationCheck`, `src/main.go:79-94`) -/

/-- The database-creation argument list and the informational notices printed
while building it, from `src/main.go:79-94`: the base command, then
`--command <customBuildCommand>` (with a `Using custom build command:` notice)
only when `customBuildCommand` is non-empty, then the database path as the
final argument.  Returns `(argument list, notice lines)`. -/
def buildCreateCommand (dir customBuildCommand dbPath : String) :
    List String × List String :=
  let command := ["codeql", "database", "create", "--language=go", "--source-root", dir]
  let withCustom :=
    if customBuildCommand ≠ "" then
      (command ++ ["--command", customBuildCommand],
       ["Using custom build command: " ++ customBuildCommand])
    else (command, [])
  (withCustom.1 ++ [dbPath], withCustom.2)

/-! ## JSON decoding (`encoding/json`, used at `src/main.go:132-137`)

`json.Unmarshal` is Go standard-library behaviour, modelled here for the
target types of `src/main.go`: a syntactically well-formed document is an
already-parsed `JsonVal`; object keys are matched to struct field names by
Unicode case folding (`foldName`); unknown keys are ignored; `null` leaves a
field's current value (and sets a slice to nil); a value of the wrong shape
for a field is a decode error. -/

/-- Fold of one character for `encoding/json` field-name matching
(`foldName`): ASCII lower-case letters are upper-cased; `ſ` (U+017F, long s)
and `K` (U+212A, Kelvin sign) — the only characters outside ASCII whose
Unicode simple-fold orbit reaches ASCII — fold to their orbit minima `S` and
`K`.  Every other character is kept as-is, which preserves equality and
inequality with the folded (ASCII upper-case) field names this decoder
compares against, since no other character folds into ASCII. -/
def foldChar (c : Char) : Char :=
  if c.toNat = 0x17F then 'S'
  else if c.toNat = 0x212A then 'K'
  else if 97 ≤ c.toNat ∧ c.toNat ≤ 122 then Char.ofNat (c.toNat - 32)
  else c

/-- Unicode case-folding match of a JSON object key against a struct field
name, as `encoding/json` matches keys to fields (both sides folded and
compared); the field name is supplied already folded. -/
def keyIs (k : String) (foldedFieldName : String) : Bool :=
  k.data.map foldChar == foldedFieldName.data

/-- A parsed, syntactically well-formed JSON document. -/
inductive JsonVal where
  | null
  | bool (b : Bool)
  | num (n : Int)
  | str (s : String)
  | arr (elems : List JsonVal)
  | obj (fields : List (String × JsonVal))
deriving Repr

/-- Decode every element of a JSON array, returning the first error. -/
def decodeList {α : Type} (d : JsonVal → Except String α) :
    List JsonVal → Except String (List α)
  | [] => .ok []
  | x :: xs =>
    match d x with
    | .error e => .error e
    | .ok a =>
      match decodeList d xs with
      | .error e => .error e
      | .ok ys => .ok (a :: ys)

/-- Field loop for `SarifRegion` (`StartLine`, `StartColumn`, `EndLine`). -/
def decodeRegionFields : List (String × JsonVal) → SarifRegion →
    Except String SarifRegion
  | [], acc => .ok acc
  | (k, v) :: rest, acc =>
    if keyIs k "STARTLINE" then
      match v with
      | .null => decodeRegionFields rest acc
      | .num n => decodeRegionFields rest { acc with StartLine := n }
      | _ => .error "json: cannot unmarshal value into Go value of type int"
    else if keyIs k "STARTCOLUMN" then
      match v with
      | .null => decodeRegionFields rest acc
      | .num n => decodeRegionFields rest { acc with StartColumn := n }
      | _ => .error "json: cannot unmarshal value into Go value of type int"
    else if keyIs k "ENDLINE" then
      match v with
      | .null => decodeRegionFields rest acc
      | .num n => decodeRegionFields rest { acc with EndLine := n }
      | _ => .error "json: cannot unmarshal value into Go value of type int"
    else decodeRegionFields rest acc

/-- Unmarshal a JSON value into a `SarifRegion` (merging into `acc`). -/
def decodeRegion (j : JsonVal) (acc : SarifRegion) : Except String SarifRegion :=
  match j with
  | .null => .ok acc
  | .obj kvs => decodeRegionFields kvs acc
  | _ => .error "json: cannot unmarshal value into Go value of type main.SarifRegion"

/-- Field loop for `SarifArtifactLocation` (`Uri`). -/
def decodeArtifactLocationFields : List (String × JsonVal) → SarifArtifactLocation →
    Except String SarifArtifactLocation
  | [], acc => .ok acc
  | (k, v) :: rest, acc =>
    if keyIs k "URI" then
      match v with
      | .null => decodeArtifactLocationFields rest acc
      | .str s => decodeArtifactLocationFields rest { acc with Uri := s }
      | _ => .error "json: cannot unmarshal value into Go value of type string"
    else decodeArtifactLocationFields rest acc

/-- Unmarshal a JSON value into a `SarifArtifactLocation`. -/
def decodeArtifactLocation (j : JsonVal) (acc : SarifArtifactLocation) :
    Except String SarifArtifactLocation :=
  match j with
  | .null => .ok acc
  | .obj kvs => decodeArtifactLocationFields kvs acc
  | _ => .error "json: cannot unmarshal value into Go value of type main.SarifArtifactLocation"

/-- Field loop for `SarifPhysicalLocation` (`ArtifactLocation`, `Region`). -/
def decodePhysicalLocationFields : List (String × JsonVal) → SarifPhysicalLocation →
    Except String SarifPhysicalLocation
  | [], acc => .ok acc
  | (k, v) :: rest, acc =>
    if keyIs k "ARTIFACTLOCATION" then
      match decodeArtifactLocation v acc.ArtifactLocation with
      | .error e => .error e
      | .ok al => decodePhysicalLocationFields rest { acc with ArtifactLocation := al }
    else if keyIs k "REGION" then
      match decodeRegion v acc.Region with
      | .error e => .error e
      | .ok rg => decodePhysicalLocationFields rest { acc with Region := rg }
    else decodePhysicalLocationFields rest acc

/-- Unmarshal a JSON value into a `SarifPhysicalLocation`. -/
def decodePhysicalLocation (j : JsonVal) (acc : SarifPhysicalLocation) :
    Except String SarifPhysicalLocation :=
  match j with
  | .null => .ok acc
  | .obj kvs => decodePhysicalLocationFields kvs acc
  | _ => .error "json: cannot unmarshal value into Go value of type main.SarifPhysicalLocation"

/-- Field loop for `SarifLocation` (`PhysicalLocation`). -/
def decodeLocationFields : List (String × JsonVal) → SarifLocation →
    Except String SarifLocation
  | [], acc => .ok acc
  | (k, v) :: rest, acc =>
    if keyIs k "PHYSICALLOCATION" then
      match decodePhysicalLocation v acc.PhysicalLocation with
      | .error e => .error e
      | .ok pl => decodeLocationFields rest { acc with PhysicalLocation := pl }
    else decodeLocationFields rest acc

/-- The zero value of `SarifLocation`. -/
def zeroLocation : SarifLocation := ⟨⟨⟨""⟩, ⟨0, 0, 0⟩⟩⟩

/-- Unmarshal a JSON value into a fresh `SarifLocation` (slice element). -/
def decodeLocation (j : JsonVal) : Except String SarifLocation :=
  match j with
  | .null => .ok zeroLocation
  | .obj kvs => decodeLocationFields kvs zeroLocation
  | _ => .error "json: cannot unmarshal value into Go value of type main.SarifLocation"

/-- Field loop for `SarifMessage` (`Text`). -/
def decodeMessageFields : List (String × JsonVal) → SarifMessage →
    Except String SarifMessage
  | [], acc => .ok acc
  | (k, v) :: rest, acc =>
    if keyIs k "TEXT" then
      match v with
      | .null => decodeMessageFields rest acc
      | .str s => decodeMessageFields rest { acc with Text := s }
      | _ => .error "json: cannot unmarshal value into Go value of type string"
    else decodeMessageFields rest acc

/-- Unmarshal a JSON value into a `SarifMessage`. -/
def decodeMessage (j : JsonVal) (acc : SarifMessage) : Except String SarifMessage :=
  match j with
  | .null => .ok acc
  | .obj kvs => decodeMessageFields kvs acc
  | _ => .error "json: cannot unmarshal value into Go value of type main.SarifMessage"

/-- Field loop for `SarifResult` (`Message`, `Locations`). -/
def decodeResultFields : List (String × JsonVal) → SarifResult →
    Except String SarifResult
  | [], acc => .ok acc
  | (k, v) :: rest, acc =>
    if keyIs k "MESSAGE" then
      match decodeMessage v acc.Message with
      | .error e => .error e
      | .ok m => decodeResultFields rest { acc with Message := m }
    else if keyIs k "LOCATIONS" then
      match v with
      | .null => decodeResultFields rest { acc with Locations := [] }
      | .arr xs =>
        match decodeList decodeLocation xs with
        | .error e => .error e
        | .ok ls => decodeResultFields rest { acc with Locations := ls }
      | _ => .error "json: cannot unmarshal value into Go value of type []main.SarifLocation"
    else decodeResultFields rest acc

/-- Unmarshal a JSON value into a fresh `SarifResult` (slice element). -/
def decodeResult (j : JsonVal) : Except String SarifResult :=
  match j with
  | .null => .ok ⟨⟨""⟩, []⟩
  | .obj kvs => decodeResultFields kvs ⟨⟨""⟩, []⟩
  | _ => .error "json: cannot unmarshal value into Go value of type main.SarifResult"

/-- Field loop for `SarifRun` (`Results`). -/
def decodeRunFields : List (String × JsonVal) → SarifRun → Except String SarifRun
  | [], acc => .ok acc
  | (k, v) :: rest, acc =>
    if keyIs k "RESULTS" then
      match v with
      | .null => decodeRunFields rest { acc with Results := [] }
      | .arr xs =>
        match decodeList decodeResult xs with
        | .error e => .error e
        | .ok rs => decodeRunFields rest { acc with Results := rs }
      | _ => .error "json: cannot unmarshal value into Go value of type []main.SarifResult"
    else decodeRunFields rest acc

/-- Unmarshal a JSON value into a fresh `SarifRun` (slice element). -/
def decodeRun (j : JsonVal) : Except String SarifRun :=
  match j with
  | .null => .ok ⟨[]⟩
  | .obj kvs => decodeRunFields kvs ⟨[]⟩
  | _ => .error "json: cannot unmarshal value into Go value of type main.SarifRun"

/-- Unmarshal the value of a `runs` key into the `Runs` slice: `null` sets
the slice to nil, an array decodes elementwise, anything else is an error. -/
def decodeRunsValue (v : JsonVal) : Except String (List SarifRun) :=
  match v with
  | .null => .ok []
  | .arr xs => decodeList decodeRun xs
  | _ => .error "json: cannot unmarshal value into Go value of type []main.SarifRun"

/-- Field loop for the top-level `Sarif` struct (`Runs`). -/
def decodeSarifFields : List (String × JsonVal) → Sarif → Except String Sarif
  | [], acc => .ok acc
  | (k, v) :: rest, acc =>
    if keyIs k "RUNS" then
      match decodeRunsValue v with
      | .error e => .error e
      | .ok runs => decodeSarifFields rest { acc with Runs := runs }
    else decodeSarifFields rest acc

/-- Model of `json.Unmarshal(data, &sarif)` on a parsed document: a JSON
object (fields merged into the zero `Sarif`), `null` (no-op), or a decode
error for any other top-level shape. -/
def decodeSarif (j : JsonVal) : Except String Sarif :=
  match j with
  | .null => .ok ⟨[]⟩
  | .obj kvs => decodeSarifFields kvs ⟨[]⟩
  | _ => .error "json: cannot unmarshal value into Go value of type main.Sarif"

/-! ## The analysis step (`runAnalysis`, `src/main.go:110-138`) -/

/-- The bytes of the results file: either syntactically well-formed JSON
(carrying its parse) or malformed (carrying the syntax error message). -/
def ResultBytes : Type := Except String JsonVal

/-- External-world outcomes that `runAnalysis` depends on: whether the
`codeql database analyze` subprocess run (`cmd.Run()`) succeeded, and the
outcome of `os.ReadFile(resultsPath)`. -/
structure AnalysisEnv where
  analyzeRun : Except String Unit
  readFile : Except String ResultBytes

/-- Model of `runAnalysis(dbPath)`, returning the Go pair
`(*Sarif, error)` as `(Option Sarif, Option String)`: on a subprocess
failure, `(nil, "analysis failed: " ++ e)` without touching the results
file; then the file read, then `json.Unmarshal`, each propagating its
error; on success `(report, nil)`. -/
def runAnalysis (env : AnalysisEnv) : Option Sarif × Option String :=
  match env.analyzeRun with
  | .error e => (none, some ("analysis failed: " ++ e))
  | .ok _ =>
    match env.readFile with
    | .error e => (none, some e)
    | .ok bytes =>
      match bytes with
      | .error e => (none, some e)
      | .ok j =>
        match decodeSarif j with
        | .error e => (none, some e)
        | .ok sarif => (some sarif, none)

/-! ## The orchestrator (`runMigrationCheck`, `src/main.go:70-108`) -/

/-- External-world outcomes that `runMigrationCheck` depends on:
`os.MkdirTemp` (yielding the temp directory path), the
`codeql database create` subprocess run, the analysis step's environment,
and the file system seen by `printFindings`. -/
structure CheckEnv where
  mkdirTemp : Except String String
  createRun : Except String Unit
  analysisEnv : AnalysisEnv
  fs : String → Option (List Char)

/-- How `runMigrationCheck` ends: normal return, an error return, or a
propagating panic. -/
inductive CheckOutcome where
  | ok
  | err (msg : String)
  | panicked
deriving Repr, DecidableEq

/-- Model of `runMigrationCheck(dir, customBuildCommand)`.  The returned
`Bool` records whether the deferred `os.RemoveAll(dbPath)` ran: the defer is
registered immediately after `os.MkdirTemp` succeeds, and Go runs deferred
calls on every normal return, error return, and panic of the function, so
every exit after that point carries `true`.  If `runAnalysis` returned a nil
report with a nil error, `printFindings` would dereference nil and panic;
that branch is unreachable for this model of `runAnalysis` but is spelled
out for totality. -/
def runMigrationCheck (dir customBuildCommand : String) (env : CheckEnv) :
    CheckOutcome × Bool :=
  match env.mkdirTemp with
  | .error e => (.err e, false)
  | .ok dbPath =>
    let _cmd := buildCreateCommand dir customBuildCommand dbPath
    match env.createRun with
    | .error e => (.err e, true)
    | .ok _ =>
      match runAnalysis env.analysisEnv with
      | (_, some e) => (.err e, true)
      | (none, none) => (.panicked, true)
      | (some sarif, none) =>
        match (printFindings env.fs sarif).failure with
        | none => (.ok, true)
        | some (.readErr m) => (.err m, true)
        | some .panicked => (.panicked, true)

/-! ## Concrete fixtures used to instantiate the theorems -/

/-- A file system with one file `foo.go` of three lines: `ab`, `x := 1`, `c`. -/
def fsFoo : String → Option (List Char) := fun p =>
  if p = "foo.go" then
    some (linesContent [['a', 'b'], ['x', ' ', ':', '=', ' ', '1'], ['c']])
  else none

/-- The line list of `foo.go` in `fsFoo`. -/
def fooLines : List (List Char) := [['a', 'b'], ['x', ' ', ':', '=', ' ', '1'], ['c']]

/-- A location in `foo.go` at line 2, column 5. -/
def locCol5 : SarifLocation := ⟨⟨⟨"foo.go"⟩, ⟨2, 5, 2⟩⟩⟩

/-- A location in `foo.go` at line 2, column 0. -/
def locCol0 : SarifLocation := ⟨⟨⟨"foo.go"⟩, ⟨2, 0, 2⟩⟩⟩

/-- A location in `foo.go` at line 2 with a negative column. -/
def locNeg : SarifLocation := ⟨⟨⟨"foo.go"⟩, ⟨2, -1, 0⟩⟩⟩

/-- A location referencing a file absent from `fsFoo`. -/
def locMissing : SarifLocation := ⟨⟨⟨"missing.go"⟩, ⟨1, 0, 1⟩⟩⟩

/-- A report whose only location has a readable line but a negative column. -/
def sarifNeg : Sarif := ⟨[⟨[⟨⟨"m"⟩, [locNeg]⟩]⟩]⟩

/-- A report with one readable finding followed by one whose file is missing. -/
def sarifMixed : Sarif := ⟨[⟨[⟨⟨"m1"⟩, [locCol5]⟩, ⟨⟨"m2"⟩, [locMissing]⟩]⟩]⟩

/-- A parsed results document carrying a negative `startColumn`. -/
def negColDoc : JsonVal :=
  .obj [("runs", .arr [.obj [("results", .arr [.obj [
    ("message", .obj [("text", .str "m")]),
    ("locations", .arr [.obj [("physicalLocation", .obj [
      ("artifactLocation", .obj [("uri", .str "foo.go")]),
      ("region", .obj [("startLine", .num 2), ("startColumn", .num (-1))])])]])]])]])]

/-- A single line of 65536 `a` bytes — at the scanner's token-size limit. -/
def longLine : List Char := List.replicate maxScanTokenSize 'a'

/-- A file system with one file `long.txt` holding `longLine`, newline
terminated. -/
def fsLong : String → Option (List Char) := fun p =>
  if p = "long.txt" then some (linesContent [longLine]) else none

/-- An analysis environment whose `analyze` subprocess fails. -/
def envAnalyzeFail : AnalysisEnv := ⟨.error "exit status 1", .ok (.ok .null)⟩

/-- An orchestrator environment whose every external step succeeds. -/
def envAllOk : CheckEnv := ⟨.ok "/tmp/db", .ok (), ⟨.ok (), .ok (.ok .null)⟩, fsFoo⟩

/-! ## Helper lemmas -/

theorem string_mk_append (l₁ l₂ : List Char) :
    String.mk l₁ ++ String.mk l₂ = String.mk (l₁ ++ l₂) := rfl

theorem string_append_assoc (a b c : String) : a ++ b ++ c = a ++ (b ++ c) := by
  cases a with | mk la =>
  cases b with | mk lb =>
  cases c with | mk lc =>
  exact congrArg String.mk (List.append_assoc la lb lc)

theorem dropCR_eq_self (l : List Char) (h : l.getLast? ≠ some '\r') :
    dropCR l = l := by
  unfold dropCR
  cases hl : l.getLast? with
  | none => rfl
  | some c =>
    have hc : c ≠ '\r' := fun hcr => h (by rw [hl, hcr])
    simp [hc]

theorem scanLinesAux_newline (t : List Char) (l : List Char) (hl : '\n' ∉ l) :
    ∀ acc : List Char, acc.length + l.length < maxScanTokenSize →
      scanLinesAux acc (l ++ '\n' :: t) =
        (dropCR (acc ++ l) :: (scanLinesAux [] t).1, (scanLinesAux [] t).2) := by
  induction l with
  | nil =>
    intro acc hlen
    have hnot : ¬maxScanTokenSize ≤ acc.length := by
      simp only [List.length_nil, Nat.add_zero] at hlen
      omega
    simp [scanLinesAux, hnot]
  | cons c cs ih =>
    intro acc hlen
    have hc : c ≠ '\n' := fun h => hl (h ▸ List.mem_cons_self c cs)
    have hcs : '\n' ∉ cs := fun h => hl (List.mem_cons_of_mem c h)
    have hnot : ¬maxScanTokenSize ≤ acc.length := by
      simp only [List.length_cons] at hlen
      omega
    simp only [List.cons_append, scanLinesAux, if_neg hnot, if_neg hc, List.append_eq]
    rw [ih hcs (acc ++ [c]) (by simp only [List.length_append, List.length_cons,
      List.length_singleton, List.length_nil] at hlen ⊢; omega), List.append_assoc]
    rfl

theorem scanLines_linesContent (ls : List (List Char))
    (h : ∀ l ∈ ls, '\n' ∉ l ∧ l.getLast? ≠ some '\r' ∧ l.length < maxScanTokenSize) :
    scanLines (linesContent ls) = (ls, none) := by
  induction ls with
  | nil => rfl
  | cons l ls ih =>
    have hl := h l (List.mem_cons_self l ls)
    have hls := fun x hx => h x (List.mem_cons_of_mem l hx)
    have ih' : scanLinesAux [] (linesContent ls) = (ls, none) := ih hls
    unfold scanLines linesContent
    unfold linesContent at ih'
    simp only [List.map_cons, List.flatten_cons, List.append_assoc, List.singleton_append]
    rw [scanLinesAux_newline _ l hl.1 [] (by simpa using hl.2.2), List.nil_append,
      dropCR_eq_self l hl.2.1, ih']

theorem scan_run_too_long :
    ∀ (k : Nat) (acc rest : List Char), acc.length + k = maxScanTokenSize →
      scanLinesAux acc (List.replicate k 'a' ++ rest) = ([], some bufioErrTooLong) := by
  intro k
  induction k with
  | zero =>
    intro acc rest hlen
    have hfull : maxScanTokenSize ≤ acc.length := by omega
    cases rest with
    | nil => simp [scanLinesAux, hfull]
    | cons c cs => simp [scanLinesAux, hfull]
  | succ k ih =>
    intro acc rest hlen
    have hnot : ¬maxScanTokenSize ≤ acc.length := by omega
    simp only [List.replicate_succ, List.cons_append, scanLinesAux, if_neg hnot]
    rw [if_neg (show ¬('a' = '\n') by decide)]
    exact ih (acc ++ ['a']) rest
      (by simp only [List.length_append, List.length_singleton]; omega)

theorem readLoop_found (t : Int) (l : List Char) :
    ∀ (ls : List (List Char)) (k : Nat) (cur : Int) (scanErr : Option String),
      ls[k]? = some l → t = cur + k → readLoop t ls cur scanErr = .ok (String.mk l) := by
  intro ls
  induction ls with
  | nil => intro k cur scanErr hk; simp at hk
  | cons x ls ih =>
    intro k cur scanErr hk ht
    cases k with
    | zero =>
      simp at hk
      subst hk
      simp only [readLoop]
      rw [if_pos (by omega)]
    | succ k =>
      have hne : ¬cur = t := by omega
      simp only [readLoop, if_neg hne]
      exact ih k (cur + 1) scanErr (by simpa using hk) (by omega)

theorem readLoop_past_end (t : Int) :
    ∀ (ls : List (List Char)) (cur : Int), cur + ls.length ≤ t →
      readLoop t ls cur none = .error ("file has less than " ++ toString t ++ " lines") := by
  intro ls
  induction ls with
  | nil => intro cur _; rfl
  | cons x ls ih =>
    intro cur h
    simp only [List.length_cons] at h
    have hne : ¬cur = t := by omega
    simp only [readLoop, if_neg hne]
    exact ih (cur + 1) (by omega)

/-! ## Claim theorems -/

/-- C2 (amended): for every file whose lines are each shorter than the
scanner's 64 KiB maximum token size, and every target line number that is at
most the file's line count, `readSpecificLine` returns the exact text of
that line, byte for byte, with the line terminator excluded and nothing else
trimmed; for a target beyond the line count it returns the error
`file has less than N lines` and no value.  The file is given as raw bytes
`linesContent ls` (the lines joined with `'\n'` terminators), so the
returned line is exactly the corresponding entry of `ls`. -/
theorem readSpecificLine_exact (fs : String → Option (List Char)) (p : String)
    (ls : List (List Char)) (t : Int)
    (hfs : fs p = some (linesContent ls))
    (hwf : ∀ l ∈ ls, '\n' ∉ l ∧ l.getLast? ≠ some '\r' ∧ l.length < maxScanTokenSize) :
    (∀ (k : Nat) (l : List Char), ls[k]? = some l → t = k + 1 →
        readSpecificLine fs p t = .ok (String.mk l))
    ∧ ((ls.length : Int) < t →
        readSpecificLine fs p t =
          .error ("file has less than " ++ toString t ++ " lines")) := by
  have hred : readSpecificLine fs p t =
      readLoop t (scanLines (linesContent ls)).1 1 (scanLines (linesContent ls)).2 := by
    unfold readSpecificLine
    rw [hfs]
  rw [hred, scanLines_linesContent ls hwf]
  constructor
  · intro k l hk ht
    exact readLoop_found t l ls k 1 none hk (by omega)
  · intro ht
    exact readLoop_past_end t ls 1 (by omega)

/-- Witness for C2's amended theorem at the concrete file `foo.go` =
`ab` / `x := 1` / `c`: line 2 reads back exactly `x := 1`, and line 4 is
past the end. -/
theorem readSpecificLine_exact_witness :
    readSpecificLine fsFoo "foo.go" 2 = .ok "x := 1"
    ∧ readSpecificLine fsFoo "foo.go" 4 =
        .error "file has less than 4 lines" := by
  constructor
  · exact (readSpecificLine_exact fsFoo "foo.go" fooLines 2 (by decide)
      (by decide)).1 1 ['x', ' ', ':', '=', ' ', '1'] (by decide) (by decide)
  · exact ((readSpecificLine_exact fsFoo "foo.go" fooLines 4 (by decide)
      (by decide)).2 (by decide)).trans rfl

/-- Counterexample to C2 as stated: `long.txt` consists of exactly one
newline-terminated line (65536 `a` bytes), so the target line 1 is at most
the file's line count, yet `readSpecificLine` does not return the line's
text — the 65536 bytes before the newline overflow the scanner's 64 KiB
buffer, `Scan` stops, and `scanner.Err()` surfaces `bufio.ErrTooLong`. -/
theorem readSpecificLine_counterexample :
    readSpecificLine fsLong "long.txt" 1 =
      .error "bufio.Scanner: token too long" := by
  have hfs : fsLong "long.txt" = some (linesContent [longLine]) := rfl
  have hcontent : linesContent [longLine] =
      List.replicate maxScanTokenSize 'a' ++ ['\n'] := by
    simp [linesContent, longLine]
  have hscan : scanLines (linesContent [longLine]) = ([], some bufioErrTooLong) := by
    show scanLinesAux [] (linesContent [longLine]) = _
    rw [hcontent]
    exact scan_run_too_long maxScanTokenSize [] ['\n'] (by simp)
  have hred : readSpecificLine fsLong "long.txt" 1 =
      readLoop 1 (scanLines (linesContent [longLine])).1 1
        (scanLines (linesContent [longLine])).2 := by
    unfold readSpecificLine
    rw [hfs]
  rw [hred, hscan]
  rfl

theorem flatten_replicate_space (n : Nat) :
    (List.replicate n (" ".data)).flatten = List.replicate n ' ' := by
  induction n with
  | zero => rfl
  | succ n ih =>
    rw [List.replicate_succ, List.flatten_cons, ih, List.replicate_succ]
    rfl

theorem stringsRepeat_nonneg (c : Int) (h : 0 ≤ c) :
    stringsRepeat " " c = some (String.mk (List.replicate c.toNat ' ')) := by
  unfold stringsRepeat
  rw [if_neg (by omega), flatten_replicate_space]

theorem stringsRepeat_neg (c : Int) (h : c < 0) : stringsRepeat " " c = none := by
  unfold stringsRepeat
  rw [if_pos h]

theorem renderOne_read_error (fs : String → Option (List Char))
    (text : String) (location : SarifLocation) (e : String)
    (h : readSpecificLine fs location.PhysicalLocation.ArtifactLocation.Uri
        location.PhysicalLocation.Region.StartLine = .error e) :
    renderOne fs text location =
      ⟨[], some (.readErr ("failed to read file: " ++ e))⟩ := by
  simp only [renderOne]
  rw [h]

theorem renderOne_ok (fs : String → Option (List Char))
    (text : String) (location : SarifLocation) (code : String)
    (hread : readSpecificLine fs location.PhysicalLocation.ArtifactLocation.Uri
        location.PhysicalLocation.Region.StartLine = .ok code)
    (hcol : 0 ≤ location.PhysicalLocation.Region.StartColumn) :
    renderOne fs text location =
      ⟨[location.PhysicalLocation.ArtifactLocation.Uri ++ ":"
          ++ toString location.PhysicalLocation.Region.StartLine ++ ":"
          ++ toString location.PhysicalLocation.Region.StartColumn ++ ": " ++ text,
        "  " ++ toString location.PhysicalLocation.Region.StartLine ++ ": " ++ code,
        String.mk (List.replicate location.PhysicalLocation.Region.StartColumn.toNat ' ')
          ++ "^"],
       none⟩ := by
  simp only [renderOne]
  rw [hread, stringsRepeat_nonneg _ hcol]

theorem renderOne_negative_column (fs : String → Option (List Char))
    (text : String) (location : SarifLocation) (code : String)
    (hread : readSpecificLine fs location.PhysicalLocation.ArtifactLocation.Uri
        location.PhysicalLocation.Region.StartLine = .ok code)
    (hcol : location.PhysicalLocation.Region.StartColumn < 0) :
    renderOne fs text location =
      ⟨[location.PhysicalLocation.ArtifactLocation.Uri ++ ":"
          ++ toString location.PhysicalLocation.Region.StartLine ++ ":"
          ++ toString location.PhysicalLocation.Region.StartColumn ++ ": " ++ text,
        "  " ++ toString location.PhysicalLocation.Region.StartLine ++ ": " ++ code],
       some .panicked⟩ := by
  simp only [renderOne]
  rw [hread, stringsRepeat_neg _ hcol]

/-- C1: for a (result, location) pair whose line is readable and whose
`StartColumn` is the (non-negative) value `c`, the rendered block has exactly
three lines, and the third consists of exactly `c` space characters followed
by a single caret, the column value being used verbatim as the space count
with no clamping (`Int.toNat` agrees with the column under `hcol`); in
particular a column of 0 yields the one-character line `^`. -/
theorem caret_line_exact (fs : String → Option (List Char))
    (text : String) (location : SarifLocation) (code : String)
    (hread : readSpecificLine fs location.PhysicalLocation.ArtifactLocation.Uri
        location.PhysicalLocation.Region.StartLine = .ok code)
    (hcol : 0 ≤ location.PhysicalLocation.Region.StartColumn) :
    (renderOne fs text location).lines.length = 3
    ∧ (renderOne fs text location).lines[2]? =
        some (String.mk
          (List.replicate location.PhysicalLocation.Region.StartColumn.toNat ' '
            ++ ['^']))
    ∧ (location.PhysicalLocation.Region.StartColumn.toNat : Int) =
        location.PhysicalLocation.Region.StartColumn
    ∧ (location.PhysicalLocation.Region.StartColumn = 0 →
        (renderOne fs text location).lines[2]? = some "^") := by
  rw [renderOne_ok fs text location code hread hcol]
  refine ⟨rfl, ?_, by omega, ?_⟩
  · rw [show
      String.mk (List.replicate location.PhysicalLocation.Region.StartColumn.toNat ' ')
        ++ "^" =
      String.mk (List.replicate location.PhysicalLocation.Region.StartColumn.toNat ' '
        ++ ['^']) from rfl]
    rfl
  · intro h0
    rw [h0]
    rfl

/-- Witness for C1: at column 5 the caret line is five spaces and a caret,
and at column 0 it is the single character `^`. -/
theorem caret_line_exact_witness :
    (renderOne fsFoo "m" locCol5).lines[2]? = some "     ^"
    ∧ (renderOne fsFoo "m" locCol0).lines[2]? = some "^" := by
  constructor
  · exact ((caret_line_exact fsFoo "m" locCol5 "x := 1" (by decide)
      (by decide)).2.1).trans rfl
  · exact (caret_line_exact fsFoo "m" locCol0 "x := 1" (by decide)
      (by decide)).2.2.2 (by decide)

/-- C8: for a pair whose source line reads successfully, the first printed
line is exactly `<uri>:<line>:<column>: <message>` and the second is exactly
two spaces, the line number, a colon and a space, then the exact source line
text (colour wrappers being the identity on the text). -/
theorem first_two_lines_format (fs : String → Option (List Char))
    (text : String) (location : SarifLocation) (code : String)
    (hread : readSpecificLine fs location.PhysicalLocation.ArtifactLocation.Uri
        location.PhysicalLocation.Region.StartLine = .ok code) :
    (renderOne fs text location).lines[0]? =
      some (location.PhysicalLocation.ArtifactLocation.Uri ++ ":"
        ++ toString location.PhysicalLocation.Region.StartLine ++ ":"
        ++ toString location.PhysicalLocation.Region.StartColumn ++ ": " ++ text)
    ∧ (renderOne fs text location).lines[1]? =
      some ("  " ++ toString location.PhysicalLocation.Region.StartLine ++ ": "
        ++ code) := by
  rcases Int.lt_or_le location.PhysicalLocation.Region.StartColumn 0 with hcol | hcol
  · rw [renderOne_negative_column fs text location code hread hcol]
    exact ⟨rfl, rfl⟩
  · rw [renderOne_ok fs text location code hread hcol]
    exact ⟨rfl, rfl⟩

/-- Witness for C8 at the spec's example shape: `foo.go:2:5: unused variable`
over source line `x := 1`. -/
theorem first_two_lines_format_witness :
    (renderOne fsFoo "unused variable" locCol5).lines[0]? =
      some "foo.go:2:5: unused variable"
    ∧ (renderOne fsFoo "unused variable" locCol5).lines[1]? = some "  2: x := 1" := by
  have h := first_two_lines_format fsFoo "unused variable" locCol5 "x := 1" (by decide)
  exact ⟨h.1.trans rfl, h.2.trans rfl⟩

/-- C10: `printFindings` is not total over decodable reports: a location
with a readable line but a negative `StartColumn` (which the JSON decoder
accepts — `negColDoc` decodes to `sarifNeg` — since `StartColumn` is a plain
int) makes the unguarded `strings.Repeat` count panic while building the
caret line, after the first two lines and instead of an error return; a
report containing that location makes the whole render pass panic. -/
theorem negative_column_panics (fs : String → Option (List Char))
    (text : String) (location : SarifLocation) (code : String)
    (hread : readSpecificLine fs location.PhysicalLocation.ArtifactLocation.Uri
        location.PhysicalLocation.Region.StartLine = .ok code)
    (hcol : location.PhysicalLocation.Region.StartColumn < 0) :
    stringsRepeat " " location.PhysicalLocation.Region.StartColumn = none
    ∧ (renderOne fs text location).failure = some .panicked
    ∧ (∀ m, (renderOne fs text location).failure ≠ some (.readErr m))
    ∧ (renderOne fs text location).lines.length = 2
    ∧ (printFindings fs ⟨[⟨[⟨⟨text⟩, [location]⟩]⟩]⟩).failure = some .panicked
    ∧ decodeSarif negColDoc = .ok sarifNeg := by
  rw [printFindings, renderRuns, renderResults, renderLocs,
    renderOne_negative_column fs text location code hread hcol]
  refine ⟨stringsRepeat_neg _ hcol, rfl, ?_, rfl, rfl, by decide⟩
  intro m hm
  simp at hm

/-- Witness for C10: the decoded `sarifNeg` location (line 2 of `foo.go`,
column −1) panics during rendering. -/
theorem negative_column_panics_witness :
    (renderOne fsFoo "m" locNeg).failure = some .panicked
    ∧ (printFindings fsFoo sarifNeg).failure = some .panicked := by
  have h := negative_column_panics fsFoo "m" locNeg "x := 1" (by decide) (by decide)
  exact ⟨h.2.1, h.2.2.2.2.1⟩

theorem seqRender_of_none (a b : RenderOut) (h : a.failure = none) :
    seqRender a b = ⟨a.lines ++ b.lines, b.failure⟩ := by
  unfold seqRender
  rw [h]

theorem seqRender_of_some (a b : RenderOut) (f : Failure) (h : a.failure = some f) :
    seqRender a b = a := by
  unfold seqRender
  rw [h]

theorem seqRender_nil_left (b : RenderOut) : seqRender ⟨[], none⟩ b = b := rfl

theorem seqRender_assoc (a b c : RenderOut) :
    seqRender (seqRender a b) c = seqRender a (seqRender b c) := by
  cases a with | mk la fa =>
  cases b with | mk lb fb =>
  cases fa <;> cases fb <;> simp [seqRender, List.append_assoc]

theorem renderPairs_append (fs : String → Option (List Char))
    (xs ys : List (String × SarifLocation)) :
    renderPairs fs (xs ++ ys) = seqRender (renderPairs fs xs) (renderPairs fs ys) := by
  induction xs with
  | nil => rw [List.nil_append, renderPairs, seqRender_nil_left]
  | cons p ps ih =>
    rw [List.cons_append, renderPairs, renderPairs, ih, seqRender_assoc]

theorem renderLocs_eq_renderPairs (fs : String → Option (List Char))
    (text : String) (ls : List SarifLocation) :
    renderLocs fs text ls = renderPairs fs (ls.map fun l => (text, l)) := by
  induction ls with
  | nil => rfl
  | cons l ls ih => rw [renderLocs, List.map_cons, renderPairs, ih]

theorem renderResults_eq_renderPairs (fs : String → Option (List Char))
    (rs : List SarifResult) :
    renderResults fs rs =
      renderPairs fs (rs.flatMap fun r =>
        r.Locations.map fun l => (r.Message.Text, l)) := by
  induction rs with
  | nil => rfl
  | cons r rs ih =>
    rw [renderResults, List.flatMap_cons, renderPairs_append, ih,
      renderLocs_eq_renderPairs]

/-- The nested loops of `printFindings` are the flat left-to-right rendering
of the (message, location) pairs in run, result, location order. -/
theorem printFindings_eq_renderPairs (fs : String → Option (List Char))
    (sarif : Sarif) :
    printFindings fs sarif = renderPairs fs (pairsOf sarif) := by
  unfold printFindings pairsOf
  induction sarif.Runs with
  | nil => rfl
  | cons run runs ih =>
    rw [renderRuns, List.flatMap_cons, renderPairs_append, ih,
      renderResults_eq_renderPairs]

theorem renderPairs_all_ok (fs : String → Option (List Char))
    (ps : List (String × SarifLocation))
    (h : ∀ p ∈ ps, (renderOne fs p.1 p.2).failure = none) :
    renderPairs fs ps =
      ⟨ps.flatMap fun p => (renderOne fs p.1 p.2).lines, none⟩ := by
  induction ps with
  | nil => rfl
  | cons p ps ih =>
    rw [renderPairs, seqRender_of_none _ _ (h p (List.mem_cons_self p ps)),
      ih (fun q hq => h q (List.mem_cons_of_mem p hq)), List.flatMap_cons]

theorem flatMap_length_three {α : Type} (f : α → List String) :
    ∀ ps : List α, (∀ p ∈ ps, (f p).length = 3) →
      (ps.flatMap f).length = 3 * ps.length := by
  intro ps
  induction ps with
  | nil => intro _; rfl
  | cons p ps ih =>
    intro h
    rw [List.flatMap_cons, List.length_append, h p (List.mem_cons_self p ps),
      ih (fun q hq => h q (List.mem_cons_of_mem p hq)), List.length_cons]
    ring

/-- C3 (amended): when every referenced source line is readable and every
location's `StartColumn` is non-negative, `printFindings` completes without
failure and its output is the concatenation, in run order, then result
order, then location order (`pairsOf`, with no sorting, deduplication or
filtering), of one three-line block per (result, location) pair — `3 * L`
lines for `L` pairs; a result with zero locations contributes no output. -/
theorem render_blocks_exact (fs : String → Option (List Char)) (sarif : Sarif)
    (h : ∀ p ∈ pairsOf sarif,
      (readSpecificLine fs p.2.PhysicalLocation.ArtifactLocation.Uri
        p.2.PhysicalLocation.Region.StartLine).isOk = true
      ∧ 0 ≤ p.2.PhysicalLocation.Region.StartColumn) :
    (printFindings fs sarif).failure = none
    ∧ (printFindings fs sarif).lines =
        (pairsOf sarif).flatMap (fun p => (renderOne fs p.1 p.2).lines)
    ∧ (∀ p ∈ pairsOf sarif, (renderOne fs p.1 p.2).lines.length = 3)
    ∧ (printFindings fs sarif).lines.length = 3 * (pairsOf sarif).length
    ∧ (∀ text, renderLocs fs text [] = ⟨[], none⟩) := by
  have hone : ∀ p ∈ pairsOf sarif, (renderOne fs p.1 p.2).failure = none
      ∧ (renderOne fs p.1 p.2).lines.length = 3 := by
    intro p hp
    obtain ⟨hr, hc⟩ := h p hp
    rcases hread : readSpecificLine fs p.2.PhysicalLocation.ArtifactLocation.Uri
        p.2.PhysicalLocation.Region.StartLine with e | code
    · rw [hread] at hr
      simp [Except.isOk, Except.toBool] at hr
    · rw [renderOne_ok fs p.1 p.2 code hread hc]
      exact ⟨rfl, rfl⟩
  have hpairs := renderPairs_all_ok fs (pairsOf sarif)
    (fun p hp => (hone p hp).1)
  rw [printFindings_eq_renderPairs, hpairs]
  refine ⟨rfl, rfl, fun p hp => (hone p hp).2, ?_, fun _ => rfl⟩
  exact flatMap_length_three _ (pairsOf sarif) (fun p hp => (hone p hp).2)

/-- Witness for C3's amended theorem on a one-finding report: three output
lines, no failure. -/
theorem render_blocks_exact_witness :
    (printFindings fsFoo ⟨[⟨[⟨⟨"m1"⟩, [locCol5]⟩]⟩]⟩).failure = none
    ∧ (printFindings fsFoo ⟨[⟨[⟨⟨"m1"⟩, [locCol5]⟩]⟩]⟩).lines.length = 3 := by
  have h := render_blocks_exact fsFoo ⟨[⟨[⟨⟨"m1"⟩, [locCol5]⟩]⟩]⟩ (by decide)
  exact ⟨h.1, h.2.2.2.1⟩

/-- Counterexample to C3 as stated: in the report `sarifNeg` every
referenced source line is readable, yet `printFindings` does not produce one
three-line block for its single (result, location) pair — the negative
`StartColumn` aborts the pass by panic after two lines. -/
theorem render_blocks_counterexample :
    (∀ p ∈ pairsOf sarifNeg,
      (readSpecificLine fsFoo p.2.PhysicalLocation.ArtifactLocation.Uri
        p.2.PhysicalLocation.Region.StartLine).isOk = true)
    ∧ (pairsOf sarifNeg).length = 1
    ∧ (printFindings fsFoo sarifNeg).lines.length = 2
    ∧ (printFindings fsFoo sarifNeg).failure = some .panicked := by
  decide

/-- C7: if the source line of some pair fails to read, with all pairs before
it rendering cleanly, `printFindings` stops at that pair with the error
wrapped as `failed to read file: …`, prints none of that pair's three lines,
and processes no later location, result or run (the output and failure are
independent of `post`). -/
theorem read_failure_aborts (fs : String → Option (List Char)) (sarif : Sarif)
    (pre : List (String × SarifLocation)) (text : String)
    (location : SarifLocation) (post : List (String × SarifLocation)) (e : String)
    (hsplit : pairsOf sarif = pre ++ (text, location) :: post)
    (hpre : ∀ p ∈ pre, (renderOne fs p.1 p.2).failure = none)
    (hfail : readSpecificLine fs location.PhysicalLocation.ArtifactLocation.Uri
      location.PhysicalLocation.Region.StartLine = .error e) :
    printFindings fs sarif =
      ⟨pre.flatMap fun p => (renderOne fs p.1 p.2).lines,
       some (.readErr ("failed to read file: " ++ e))⟩ := by
  rw [printFindings_eq_renderPairs, hsplit, renderPairs_append,
    renderPairs_all_ok fs pre hpre, renderPairs,
    renderOne_read_error fs text location e hfail]
  simp [seqRender]

/-- Witness for C7: in `sarifMixed` the first finding renders, the second
references a missing file; the pass stops after the first block with the
wrapped open error. -/
theorem read_failure_aborts_witness :
    printFindings fsFoo sarifMixed =
      ⟨["foo.go:2:5: m1", "  2: x := 1", "     ^"],
       some (.readErr
         "failed to read file: open missing.go: no such file or directory")⟩ := by
  have h := read_failure_aborts fsFoo sarifMixed [("m1", locCol5)] "m2" locMissing
    [] "open missing.go: no such file or directory" (by decide) (by decide) (by decide)
  exact h.trans (by decide)

theorem decodeSarifFields_no_runs (kvs : List (String × JsonVal))
    (h : ∀ kv ∈ kvs, keyIs kv.1 "RUNS" = false) :
    ∀ acc : Sarif, decodeSarifFields kvs acc = .ok acc := by
  induction kvs with
  | nil => intro _; rfl
  | cons kv rest ih =>
    intro acc
    rcases kv with ⟨k, v⟩
    have hk := h (k, v) (List.mem_cons_self _ _)
    simp only [decodeSarifFields, hk, Bool.false_eq_true, if_false]
    exact ih (fun q hq => h q (List.mem_cons_of_mem _ hq)) acc

theorem decodeSarifFields_skip (k : String) (v : JsonVal)
    (hk : keyIs k "RUNS" = false) :
    ∀ (kvs₁ kvs₂ : List (String × JsonVal)) (acc : Sarif),
      decodeSarifFields (kvs₁ ++ (k, v) :: kvs₂) acc =
        decodeSarifFields (kvs₁ ++ kvs₂) acc := by
  intro kvs₁
  induction kvs₁ with
  | nil =>
    intro kvs₂ acc
    simp only [List.nil_append, decodeSarifFields, hk, Bool.false_eq_true, if_false]
  | cons kv rest ih =>
    intro kvs₂ acc
    rcases kv with ⟨k', v'⟩
    simp only [List.cons_append, decodeSarifFields]
    by_cases hk' : keyIs k' "RUNS" = true
    · rw [if_pos hk', if_pos hk']
      cases hdl : decodeRunsValue v' with
      | error e => rfl
      | ok runs => exact ih kvs₂ { acc with Runs := runs }
    · rw [if_neg hk', if_neg hk']
      exact ih kvs₂ acc

/-- C4 (amended): decoding ignores unknown extra fields — inserting any
object field whose key does not case-fold-match `Runs` (Unicode case
folding, per `encoding/json`) never changes the decode result — and a JSON
object with no fold-matching `runs` key decodes without error into a report
with empty `Runs`, for which zero findings are rendered; a well-formed
document whose top level is not an object (or `null`) fails to decode. -/
theorem decode_forward_compatible :
    (∀ kvs : List (String × JsonVal), (∀ kv ∈ kvs, keyIs kv.1 "RUNS" = false) →
      decodeSarif (.obj kvs) = .ok ⟨[]⟩)
    ∧ (∀ (kvs₁ kvs₂ : List (String × JsonVal)) (k : String) (v : JsonVal),
        keyIs k "RUNS" = false →
        decodeSarif (.obj (kvs₁ ++ (k, v) :: kvs₂)) =
          decodeSarif (.obj (kvs₁ ++ kvs₂)))
    ∧ (∀ fs, printFindings fs ⟨[]⟩ = ⟨[], none⟩)
    ∧ (∀ elems, (decodeSarif (.arr elems)).isOk = false)
    ∧ (∀ s, (decodeSarif (.str s)).isOk = false) := by
  refine ⟨?_, ?_, fun _ => rfl, fun _ => rfl, fun _ => rfl⟩
  · intro kvs h
    exact decodeSarifFields_no_runs kvs h ⟨[]⟩
  · intro kvs₁ kvs₂ k v hk
    exact decodeSarifFields_skip k v hk kvs₁ kvs₂ ⟨[]⟩

/-- Witness for C4's amended theorem: an object carrying only unknown fields
decodes to the empty report, and stays decodable when another unknown field
is inserted.  The last two conjuncts pin the fold down on the reviewer-style
probe: the key `runſ` (U+017F) case-folds to `RUNS`, so it is treated as the
`Runs` field and its non-array value is a decode error, not an ignored
unknown key. -/
theorem decode_forward_compatible_witness :
    decodeSarif (.obj [("version", .str "2.1.0"), ("x", .num 3)]) = .ok ⟨[]⟩
    ∧ decodeSarif (.obj [("version", .str "2.1.0"), ("x", .num 3)]) =
        decodeSarif (.obj [("version", .str "2.1.0")])
    ∧ keyIs "runſ" "RUNS" = true
    ∧ decodeSarif (.obj [("runſ", .num 3)]) =
        .error "json: cannot unmarshal value into Go value of type []main.SarifRun" := by
  refine ⟨decode_forward_compatible.1 _ (by decide),
    decode_forward_compatible.2.1 [("version", .str "2.1.0")] [] "x"
      (.num 3) (by decide), by decide, by decide⟩

/-- Counterexample to C4 as stated: the well-formed JSON document `[]` (a
top-level array) does not decode successfully into the report structure. -/
theorem decode_counterexample : (decodeSarif (JsonVal.arr [])).isOk = false := by
  decide

/-- C5: when the analyze subprocess fails, `runAnalysis` returns a nil
report with the error wrapped as `analysis failed: …`; the result is the
same for every environment with that subprocess outcome — the results file
is never read and no decoding is attempted — and no environment at all makes
`runAnalysis` return both a report and an error. -/
theorem analysis_failed_contract (env : AnalysisEnv) (e : String)
    (h : env.analyzeRun = .error e) :
    runAnalysis env = (none, some ("analysis failed: " ++ e))
    ∧ (∃ suffix, (runAnalysis env).2 = some ("analysis failed" ++ suffix))
    ∧ (∀ env' : AnalysisEnv, env'.analyzeRun = .error e →
        runAnalysis env' = runAnalysis env)
    ∧ (∀ env' : AnalysisEnv,
        ¬((runAnalysis env').1.isSome = true ∧ (runAnalysis env').2.isSome = true)) := by
  have hmain : runAnalysis env = (none, some ("analysis failed: " ++ e)) := by
    unfold runAnalysis
    rw [h]
  refine ⟨hmain, ⟨": " ++ e, ?_⟩, ?_, ?_⟩
  · rw [hmain]
    have hsplit : ("analysis failed: " : String) = "analysis failed" ++ ": " := rfl
    rw [hsplit, string_append_assoc]
  · intro env' h'
    have hmain' : runAnalysis env' = (none, some ("analysis failed: " ++ e)) := by
      unfold runAnalysis
      rw [h']
    rw [hmain', hmain]
  · rintro env' ⟨h1, h2⟩
    rcases env' with ⟨ar, rf⟩
    cases ar with
    | error e' => simp [runAnalysis] at h1
    | ok u =>
      cases rf with
      | error e' => simp [runAnalysis] at h1
      | ok bytes =>
        cases bytes with
        | error e' => simp [runAnalysis] at h1
        | ok j =>
          cases hd : decodeSarif j with
          | error e' => simp [runAnalysis, hd] at h1
          | ok s => simp [runAnalysis, hd] at h2

/-- Witness for C5: a subprocess failing with `exit status 1`. -/
theorem analysis_failed_contract_witness :
    runAnalysis envAnalyzeFail = (none, some "analysis failed: exit status 1") :=
  (analysis_failed_contract envAnalyzeFail "exit status 1" rfl).1.trans rfl

/-- C6: the database-creation argument list contains `--command` followed by
the custom build command exactly when `customBuildCommand` is non-empty, in
which case the `Using custom build command:` notice is printed; when it is
empty no `--command` token occurs (provided neither `dir` nor `dbPath` is
itself the literal `--command`) and no notice is printed; in both cases the
database path is the final argument. -/
theorem custom_command_flag (dir customBuildCommand dbPath : String) :
    (customBuildCommand ≠ "" →
      buildCreateCommand dir customBuildCommand dbPath =
        (["codeql", "database", "create", "--language=go", "--source-root", dir,
          "--command", customBuildCommand, dbPath],
         ["Using custom build command: " ++ customBuildCommand]))
    ∧ (customBuildCommand = "" →
      buildCreateCommand dir customBuildCommand dbPath =
        (["codeql", "database", "create", "--language=go", "--source-root", dir,
          dbPath], []))
    ∧ (buildCreateCommand dir customBuildCommand dbPath).1.getLast? = some dbPath
    ∧ (customBuildCommand ≠ "" →
        "--command" ∈ (buildCreateCommand dir customBuildCommand dbPath).1)
    ∧ (customBuildCommand = "" → dir ≠ "--command" → dbPath ≠ "--command" →
        "--command" ∉ (buildCreateCommand dir customBuildCommand dbPath).1) := by
  by_cases hc : customBuildCommand = ""
  · have heq : buildCreateCommand dir customBuildCommand dbPath =
        (["codeql", "database", "create", "--language=go", "--source-root", dir,
          dbPath], []) := by
      unfold buildCreateCommand
      simp [hc]
    refine ⟨fun h => absurd hc h, fun _ => heq, ?_, fun h => absurd hc h, ?_⟩
    · rw [heq]
      rfl
    · intro _ hdir hdb hmem
      rw [heq] at hmem
      simp only [List.mem_cons, List.not_mem_nil, or_false] at hmem
      rcases hmem with h | h | h | h | h | h | h
      · exact absurd h (by decide)
      · exact absurd h (by decide)
      · exact absurd h (by decide)
      · exact absurd h (by decide)
      · exact absurd h (by decide)
      · exact hdir h.symm
      · exact hdb h.symm
  · have heq : buildCreateCommand dir customBuildCommand dbPath =
        (["codeql", "database", "create", "--language=go", "--source-root", dir,
          "--command", customBuildCommand, dbPath],
         ["Using custom build command: " ++ customBuildCommand]) := by
      unfold buildCreateCommand
      simp [hc]
    refine ⟨fun _ => heq, fun h => absurd h hc, ?_, fun _ => ?_, fun h => absurd h hc⟩
    · rw [heq]
      rfl
    · rw [heq]
      simp

/-- Witness for C6 at `make build` and at the empty command. -/
theorem custom_command_flag_witness :
    buildCreateCommand "." "make build" "/tmp/db" =
      (["codeql", "database", "create", "--language=go", "--source-root", ".",
        "--command", "make build", "/tmp/db"],
       ["Using custom build command: make build"])
    ∧ buildCreateCommand "." "" "/tmp/db" =
      (["codeql", "database", "create", "--language=go", "--source-root", ".",
        "/tmp/db"], [])
    ∧ "--command" ∉ (buildCreateCommand "." "" "/tmp/db").1 := by
  refine ⟨(custom_command_flag "." "make build" "/tmp/db").1 (by decide),
    (custom_command_flag "." "" "/tmp/db").2.1 rfl,
    (custom_command_flag "." "" "/tmp/db").2.2.2.2 rfl (by decide) (by decide)⟩

/-- C9: once `os.MkdirTemp` has succeeded, the deferred
`os.RemoveAll(dbPath)` runs on every exit path of `runMigrationCheck` —
normal return, every error return, and panic — so the temporary directory
never survives the call. -/
theorem temp_dir_always_removed (dir customBuildCommand : String)
    (env : CheckEnv) (dbPath : String) (h : env.mkdirTemp = .ok dbPath) :
    (runMigrationCheck dir customBuildCommand env).2 = true := by
  simp only [runMigrationCheck, h]
  cases env.createRun with
  | error e => rfl
  | ok u =>
    rcases runAnalysis env.analysisEnv with ⟨_ | sarif, _ | e⟩
    · rfl
    · rfl
    · show (match (printFindings env.fs sarif).failure with
        | none => (CheckOutcome.ok, true)
        | some (Failure.readErr m) => (CheckOutcome.err m, true)
        | some Failure.panicked => (CheckOutcome.panicked, true)).2 = true
      cases (printFindings env.fs sarif).failure with
      | none => rfl
      | some f => cases f <;> rfl
    · rfl

/-- Witness for C9 on the all-success environment. -/
theorem temp_dir_always_removed_witness :
    (runMigrationCheck "." "" envAllOk).2 = true :=
  temp_dir_always_removed "." "" envAllOk "/tmp/db" rfl

end MigrationCheck
